import Mathlib

/-!
Verification of the AIStore global-rebalance and streaming-transport core:
a shallow embedding of the relevant functions from src/ec/ec.go,
src/transport/collect.go, src/reb/global.go and the reb status file,
together with theorems settling the specification claims about them.
-/

set_option maxRecDepth 4000

namespace AIStore

/-! ### Durations -/

/-- A duration, as in Go `time.Duration`: a count of nanoseconds (int64). -/
abbrev Duration := Int

/-- `time.Minute` in nanoseconds. -/
def minuteNs : Duration := 60 * 1000000000

/-- Modelled from the spec: `cmn.MinDur`, the clamp used by the wait-ack
deadline, returns the smaller of two durations (the cmn source file that
defines it is not among the sources). -/
def MinDur (d1 d2 : Duration) : Duration := if d1 < d2 then d1 else d2

/-! ### EC: spill-to-disk decision (src/ec/ec.go) -/

/-- Memory pressure levels of the managed memory pool.
Modelled from the spec: the pool exposes a `MemPressure` signal in
{Normal, High, Extreme, OOM} (spec section 5, shared resources); the memsys
package itself is not among the sources. -/
inductive MemPressure where
  | normal
  | high
  | extreme
  | oom
deriving DecidableEq, Repr

/-- Ordinal of a pressure level, for the spec comparison `pressure ≥ High`. -/
def MemPressure.level : MemPressure → Nat
  | .normal => 0
  | .high => 1
  | .extreme => 2
  | .oom => 3

/-- `cmn.MiB`. -/
def MiB : Int := 1024 * 1024

/-- From src/ec/ec.go line 128: `objSizeHighMem = 50 * cmn.MiB`. -/
def objSizeHighMem : Int := 50 * MiB

/-- From src/ec/ec.go lines 271-280 (`useDisk`): switch on the memory
pressure; OOM and Extreme return true, High returns `objSize > objSizeHighMem`,
anything else returns false. The global `mm.MemPressure()` read is passed in
as the `pressure` argument. -/
def useDisk (pressure : MemPressure) (objSize : Int) : Bool :=
  match pressure with
  | .oom => true
  | .extreme => true
  | .high => decide (objSize > objSizeHighMem)
  | .normal => false

/-- The claim C8 condition, written exactly as the spec words it:
pressure at least High and working size at least 50 MiB. -/
def useDiskClaim (pressure : MemPressure) (objSize : Int) : Bool :=
  decide (MemPressure.high.level ≤ pressure.level) && decide (objSizeHighMem ≤ objSize)

/-! ### Wait-ack deadline (src/reb/global.go, globalRebWaitAck) -/

/-- From src/reb/global.go lines 323-326:
`maxwt := config.Rebalance.DestRetryTime`;
`maxwt += time.Duration(int64(time.Minute) * int64(smap.CountTargets()/10))`;
`maxwt = cmn.MinDur(maxwt, config.Rebalance.DestRetryTime*2)`. -/
def globalRebWaitAckDeadline (destRetryTime : Duration) (targetCnt : Nat) : Duration :=
  let maxwt := destRetryTime
  let maxwt := maxwt + minuteNs * ((targetCnt / 10 : Nat) : Int)
  MinDur maxwt (destRetryTime * 2)

/-! ### Streaming transport: streams and the Stream Collector
(src/transport/collect.go) -/

/-- Modelled from the spec: the collector ticker period `tickUnit` (ticks are
measured in this unit; design range 10 ms to 1 s). The stream source file
carrying its numeric value is not among the sources; the model fixes 10 ms. -/
def tickUnit : Duration := 10 * 1000000

/-- Modelled from the spec: `tickMarker` is the sentinel size value on a
stream frame that signals an idle-transition probe (not a real object); its
numeric value lives in the stream source file, which is not among the
sources. -/
def tickMarker : Int := -1

/-- A queued stream frame: the header object-attribute size and an identity
tag distinguishing user frames. -/
structure Obj where
  size : Int
  tag : Nat
deriving DecidableEq, Repr

/-- The probe frame enqueued on an active-to-inactive transition:
`obj{hdr: Header{ObjAttrs: ObjectAttrs{Size: tickMarker}}}`. -/
def tickMarkerObj : Obj := { size := tickMarker, tag := 0 }

/-- A stream termination error (`s.term.err`); `reasonUnknown` is the
default used when no error was stored. -/
inductive TermErr where
  | reasonUnknown
  | errCode (code : Nat)
deriving DecidableEq, Repr

/-- Session state of a stream as held in the `sessST` atomic. -/
inductive SessST where
  | active
  | inactive
deriving DecidableEq, Repr

/-- The per-stream timing record `s.time`: heap index, remaining idle ticks,
idle timeout, and the posted-frames counter swapped to zero on each tick. -/
structure StreamTime where
  index : Nat
  ticks : Int
  idleOut : Duration
  posted : Nat
deriving DecidableEq, Repr

/-- A stream as seen by the collector: logical id, timing record, work
queue (the buffered `workCh` channel), session state, the terminated flag
and the stored termination error. -/
structure Stream where
  lid : String
  time : StreamTime
  workCh : List Obj
  sessST : SessST
  terminated : Bool
  termErr : Option TermErr
deriving DecidableEq, Repr

/-- Result of the first `collector.do` loop on one stream: either the stream
was removed from the collector (with the queued frames and the error passed
to their completion callbacks), or it is kept with updated state. -/
inductive Phase1Res where
  | removed (callbacks : List (Obj × TermErr))
  | kept (s : Stream)
deriving DecidableEq, Repr

/-- From src/transport/collect.go lines 128-144, the first loop body of
`collector.do`: a terminated stream has its ticks decremented and, once they
are ≤ 0, is deleted from the stream map, its queue closed and drained with
each frame completed with the stored termination error (defaulting to
`reasonUnknown`); otherwise an active stream has its ticks decremented
(via `gc.update`). -/
def doPhase1 (s : Stream) : Phase1Res :=
  if s.terminated then
    let ticks := s.time.ticks - 1
    if ticks ≤ 0 then
      let e := s.termErr.getD .reasonUnknown
      .removed (s.workCh.map (fun o => (o, e)))
    else .kept { s with time := { s.time with ticks := ticks } }
  else if s.sessST = .active then
    .kept { s with time := { s.time with ticks := s.time.ticks - 1 } }
  else
    .kept s

/-- From src/transport/collect.go lines 145-159, the second loop body of
`collector.do`: a stream whose ticks are still positive is skipped; otherwise
its ticks are reset to `idleOut/tickUnit`, its posted counter is swapped to
zero, and when no frames were posted, the queue is empty and the
active-to-inactive CAS succeeds, a `tickMarker` frame is enqueued. -/
def doPhase2 (s : Stream) : Stream :=
  if s.time.ticks > 0 then s
  else
    let s1 := { s with time := { s.time with ticks := s.time.idleOut / tickUnit } }
    if s1.time.posted > 0 then
      { s1 with time := { s1.time with posted := 0 } }
    else
      let s2 := { s1 with time := { s1.time with posted := 0 } }
      if s2.workCh.length = 0 ∧ s2.sessST = .active then
        { s2 with sessST := .inactive, workCh := s2.workCh ++ [tickMarkerObj] }
      else s2

/-- The action of one `collector.do` tick on a single registered stream:
the first loop body followed, for streams still in the map, by the second
loop body. Returns the stream state after the tick (`none` when removed)
and the completion callbacks invoked while draining. -/
def collectorDoStream (s : Stream) : Option Stream × List (Obj × TermErr) :=
  match doPhase1 s with
  | .removed cbs => (none, cbs)
  | .kept s1 => (some (doPhase2 s1), [])

/-- One `collector.do` tick over the whole stream map (modelled as a list):
each stream goes through both loop bodies; removed streams disappear and
their drain callbacks are collected. -/
def collectorDo (streams : List Stream) : List Stream × List (Obj × TermErr) :=
  (streams.filterMap (fun s => (collectorDoStream s).1),
    (streams.map (fun s => (collectorDoStream s).2)).flatten)

/-- A concrete idle active stream used to instantiate the collector
theorems. -/
def demoIdleStream : Stream :=
  { lid := "t1=>t2/sess", time := { index := 0, ticks := 1, idleOut := 20 * 1000000, posted := 0 },
    workCh := [], sessST := .active, terminated := false, termErr := none }

/-- A concrete terminated stream with one queued frame and no stored
termination error, used to instantiate the collector theorems. -/
def demoTermStream : Stream :=
  { lid := "t1=>t3/sess", time := { index := 1, ticks := 1, idleOut := 20 * 1000000, posted := 0 },
    workCh := [{ size := 100, tag := 1 }], sessST := .active, terminated := true, termErr := none }

/-! ### The collector's min-heap of streams
(src/transport/collect.go together with Go's container/heap algorithms,
which the collector instantiates) -/

/-- Default stream used by the total array accessors of the heap model. -/
def dStream : Stream :=
  { lid := "", time := { index := 0, ticks := 0, idleOut := 0, posted := 0 },
    workCh := [], sessST := .active, terminated := false, termErr := none }

/-- Total read of a collector heap slot. -/
def hget (a : Array Stream) (i : Nat) : Stream := a.getD i dStream

/-- `collector.Less` (src/transport/collect.go lines 92-96): compare two
heap slots by their streams' remaining ticks. -/
def hLess (a : Array Stream) (i j : Nat) : Bool :=
  decide ((hget a i).time.ticks < (hget a j).time.ticks)

/-- `collector.Swap` (src/transport/collect.go lines 98-102): swap the two
slots, then store each stream's new position in its `time.index` field. -/
def cSwap (a : Array Stream) (i j : Nat) : Array Stream :=
  let si := hget a i
  let sj := hget a j
  let a1 := a.setD i { sj with time := { sj.time with index := i } }
  a1.setD j { si with time := { si.time with index := j } }

/-- Go `container/heap.up` as instantiated by the collector: sift the
element at position j up towards the root, swapping with its parent while
strictly smaller. The loop is modelled with an explicit iteration budget;
`j + 1` iterations always suffice since the position strictly decreases. -/
def upGoF : Nat → Array Stream → Nat → Array Stream
  | 0, a, _ => a
  | fuel + 1, a, j =>
    if j = 0 then a
    else if hLess a j ((j - 1) / 2) then upGoF fuel (cSwap a ((j - 1) / 2) j) ((j - 1) / 2)
    else a

/-- `up(h, j)` with a sufficient iteration budget. -/
def upGo (a : Array Stream) (j : Nat) : Array Stream := upGoF (j + 1) a j

/-- Child selection inside Go `container/heap.down`: the right child when
it exists and compares strictly smaller, the left child otherwise. -/
def downChild (a : Array Stream) (i n : Nat) : Nat :=
  if 2 * i + 2 < n && hLess a (2 * i + 2) (2 * i + 1) then 2 * i + 2 else 2 * i + 1

/-- Go `container/heap.down` as instantiated by the collector: sift the
element at position i down within the first n slots, swapping with the
smaller child while that child is strictly smaller; returns the final
position (Go returns `i > i0`, recovered here by comparing positions). The
loop is modelled with an explicit iteration budget; `n + 1` iterations
always suffice since the position strictly increases and stays below n. -/
def downGoF : Nat → Array Stream → Nat → Nat → Array Stream × Nat
  | 0, a, i, _ => (a, i)
  | fuel + 1, a, i, n =>
    if 2 * i + 1 < n then
      if hLess a (downChild a i n) i then
        downGoF fuel (cSwap a i (downChild a i n)) (downChild a i n) n
      else (a, i)
    else (a, i)

/-- `down(h, i, n)` with a sufficient iteration budget. -/
def downGo (a : Array Stream) (i n : Nat) : Array Stream × Nat := downGoF (n + 1) a i n

/-- Go `container/heap.Fix`: `if !down(h, i, h.Len()) { up(h, i) }`. -/
def fixGo (a : Array Stream) (i : Nat) : Array Stream :=
  let r := downGo a i a.size
  if r.2 > i then r.1 else upGo r.1 i

/-- The collector's ctrl-add path (src/transport/collect.go lines 63-66,
104-110): `heap.Push(gc, s)` runs `collector.Push` — store the index,
append, run `heap.Fix` on the new slot — followed by `container/heap.Push`
sifting the last slot up. -/
def heapAdd (a : Array Stream) (s : Stream) : Array Stream :=
  let l := a.size
  let a1 := a.push { s with time := { s.time with index := l } }
  let a2 := fixGo a1 l
  upGo a2 (a2.size - 1)

/-- The collector's ctrl-remove path (src/transport/collect.go line 68 and
118-124): `container/heap.Remove(gc, i)` — swap slot i with the last slot,
sift down within the shortened range (or up, when the element did not move
down), then `collector.Pop` truncates the last slot. -/
def heapRemove (a : Array Stream) (i : Nat) : Array Stream :=
  let n := a.size - 1
  if n ≠ i then
    let a1 := cSwap a i n
    let r := downGo a1 i n
    let a3 := if r.2 > i then r.1 else upGo r.1 i
    a3.pop
  else a.pop

/-- `collector.update` (src/transport/collect.go lines 112-116): store the
new tick count of the stream at slot i and run `heap.Fix` on that slot. -/
def heapUpdate (a : Array Stream) (i : Nat) (ticks : Int) : Array Stream :=
  let s := hget a i
  fixGo (a.setD i { s with time := { s.time with ticks := ticks } }) i

/-- Index consistency: every stream registered in the collector stores in
`time.index` its position in the heap array. -/
def IdxInv (a : Array Stream) : Prop :=
  ∀ i, i < a.size → (hget a i).time.index = i

/-- The sortedness property asserted by the comment closing `collector.do`
(src/transport/collect.go lines 160-163): `heap[i+1].ticks >= heap[i].ticks`
for every i. -/
def TicksSorted (a : Array Stream) : Prop :=
  ∀ i, i + 1 < a.size → (hget a i).time.ticks ≤ (hget a (i + 1)).time.ticks

/-- Executable check of `IdxInv`. -/
def idxInvB (a : Array Stream) : Bool :=
  (List.range a.size).all (fun i => (hget a i).time.index == i)

/-- Executable check of `TicksSorted`. -/
def ticksSortedB (a : Array Stream) : Bool :=
  (List.range (a.size - 1)).all
    (fun i => decide ((hget a i).time.ticks ≤ (hget a (i + 1)).time.ticks))

/-- A stream as registered with the collector: the ticks of a freshly added
stream are its idle timeout measured in tick units. -/
def mkStream (lid : String) (ticks : Int) : Stream :=
  { lid := lid,
    time := { index := 0, ticks := ticks, idleOut := ticks * tickUnit, posted := 0 },
    workCh := [], sessST := .active, terminated := false, termErr := none }

/-- Five streams added to an empty collector heap in increasing order of
their remaining ticks (streams added at different times, or with different
idle timeouts, hold different tick counts). -/
def demoHeap : Array Stream :=
  heapAdd (heapAdd (heapAdd (heapAdd (heapAdd #[]
    (mkStream "s6" 6)) (mkStream "s7" 7)) (mkStream "s8" 8)) (mkStream "s9" 9))
    (mkStream "s10" 10)

/-! ### EC waiter registry (reb package)
Modelled from the spec: the registry implementation (newWaiter,
lookupCreate) is not among the sources; only its ginkgo test
(src/unnamed/part_004) is. The model follows spec section 4.6 — a map from
object UID to a slice-waiter record with one waiter per slot — and the test:
each newly created waiter is a fresh handle and bumps the outstanding
`waitFor` counter, while looking up an existing (uid, slot) returns the
previously created handle unchanged. -/

/-- A per-slice waiter handle. The `id` field models pointer identity (the
test asserts handle identity with BeIdenticalTo). -/
structure WaitCT where
  id : Nat
  slot : Int
  mode : Nat
deriving DecidableEq, Repr

/-- The waiter registry: per-UID waiter lists in insertion order, the
outstanding counter `waitFor`, and a fresh-handle source. -/
structure ECWaiterReg where
  objs : List (String × List WaitCT)
  waitFor : Nat
  nextID : Nat
deriving DecidableEq, Repr

/-- Lookup of a slot waiter inside one UID record. -/
def slotLookup (slots : List WaitCT) (slot : Int) : Option WaitCT :=
  slots.find? (fun w => w.slot == slot)

/-- Prepend a freshly created waiter to the record of the given UID. -/
def objsAdd (objs : List (String × List WaitCT)) (uid : String) (w : WaitCT) :
    List (String × List WaitCT) :=
  objs.map (fun p => if p.1 == uid then (p.1, w :: p.2) else p)

/-- Modelled from the spec (section 4.6): `lookupCreate(uid, slot, mode)`
returns the waiter registered for (uid, slot), creating it — and bumping
the outstanding counter — only when it does not exist yet. -/
def lookupCreate (wt : ECWaiterReg) (uid : String) (slot : Int) (mode : Nat) :
    WaitCT × ECWaiterReg :=
  match wt.objs.find? (fun p => p.1 == uid) with
  | some p =>
    match slotLookup p.2 slot with
    | some w => (w, wt)
    | none =>
      let w : WaitCT := { id := wt.nextID, slot := slot, mode := mode }
      (w, { objs := objsAdd wt.objs uid w, waitFor := wt.waitFor + 1, nextID := wt.nextID + 1 })
  | none =>
    let w : WaitCT := { id := wt.nextID, slot := slot, mode := mode }
    (w, { objs := (uid, [w]) :: wt.objs, waitFor := wt.waitFor + 1, nextID := wt.nextID + 1 })

/-! ### Rebalance status polling (src/unnamed/part_005, checkGlobStatus) -/

/-- The `Status` record returned by a peer's health endpoint, restricted to
the fields checkGlobStatus reads (src/unnamed/part_005 lines 24-38). -/
structure RebStatus where
  smapVersion : Int
  rebVersion : Int
  globRebID : Int
  stage : Nat
  aborted : Bool
  quiescent : Bool
deriving DecidableEq, Repr

/-- How a checkGlobStatus outcome aborts the local run. `broadcastAbort`
stands for `reb.abortGlobal()`; modelled from the spec: abortGlobal is
defined outside the included sources, and per spec section 5 an external
abort "triggers a broadcast-abort", which the source comment in the
same-ID-aborted branch contrasts with the local-only `reb.xreb.Abort()`
("do not use abortGlobal - no need to broadcast"). -/
inductive AbortAction where
  | noAbort
  | broadcastAbort
  | localAbort
deriving DecidableEq, Repr

/-- Result of one checkGlobStatus call: the parsed peer status (when
available), whether the desired stage was reached, and the abort action
taken. -/
structure CheckResult where
  status : Option RebStatus
  ok : Bool
  action : AbortAction
deriving DecidableEq, Repr

/-- From src/unnamed/part_005 lines 285-349 (`checkGlobStatus`): the two
Health calls and the JSON decode are modelled by their outcomes
(healthErr: first call fails; abortedDuringRetry: the abort flag observed
while sleeping before the retry; healthErr2: the retry fails too;
unmarshalErr: the body does not parse); `st` is the decoded peer status,
`ver` the local run's Smap version, `localID` the local globRebID. -/
def checkGlobStatus (localID ver : Int) (desiredStage : Nat)
    (healthErr abortedDuringRetry healthErr2 unmarshalErr : Bool)
    (st : RebStatus) : CheckResult :=
  if healthErr && abortedDuringRetry then
    { status := none, ok := false, action := .noAbort }
  else if healthErr && healthErr2 then
    { status := none, ok := false, action := .broadcastAbort }
  else if unmarshalErr then
    { status := none, ok := false, action := .broadcastAbort }
  else if st.smapVersion > ver ∨ st.rebVersion > ver then
    { status := some st, ok := false, action := .broadcastAbort }
  else if st.globRebID > localID then
    { status := some st, ok := false, action := .broadcastAbort }
  else if st.smapVersion < ver ∨ st.rebVersion < ver then
    { status := some st, ok := false, action := .noAbort }
  else if st.globRebID < localID then
    { status := some st, ok := false, action := .noAbort }
  else if st.globRebID = localID ∧ st.aborted = true then
    { status := some st, ok := false, action := .localAbort }
  else if st.stage ≥ desiredStage then
    { status := some st, ok := true, action := .noAbort }
  else
    { status := some st, ok := false, action := .noAbort }

/-! ### Rebalance stages
Modelled from the spec: the rebStage constants live in the reb manager
file, which is not among the sources; the values follow the pipeline order
of spec section 3 (Stage row) and are consistent with every comparison the
included sources make. -/

def rebStageInactive : Nat := 0
def rebStageInit : Nat := 1
def rebStageTraverse : Nat := 2
def rebStageECNamespace : Nat := 3
def rebStageECDetect : Nat := 4
def rebStageECGlobRepair : Nat := 5
def rebStageECBatches : Nat := 6
def rebStageECCleanup : Nat := 7
def rebStageWaitAck : Nat := 8
def rebStageFin : Nat := 9
def rebStageDone : Nat := 10

/-! ### waitQuiesce (src/reb/global.go lines 403-424) -/

/-- One observation of the waitQuiesce loop body: whether the `laterx`
activity flag was set when the CAS ran (inbound activity since the last
tick), whether the optional callback returned true, and whether
`AbortedAfter(sleep)` observed the abort flag. -/
structure QTick where
  activity : Bool
  cbDone : Bool
  abortAfter : Bool
deriving DecidableEq, Repr

/-- From src/reb/global.go lines 410-421, the waitQuiesce loop:
while `quiescent < maxQuiet && !aborted`, a failed CAS on `laterx` (no
activity) increments the quiet counter and a successful one resets it; a
true callback breaks; `AbortedAfter(sleep)` refreshes the aborted flag.
Returns the `aborted` result, or `none` when the observation trace is
exhausted with the loop still running. -/
def waitQuiesceLoop (maxQuiet : Nat) (hasCb : Bool) :
    Nat → Bool → List QTick → Option Bool
  | quiescent, aborted, [] =>
    if maxQuiet ≤ quiescent ∨ aborted = true then some aborted else none
  | quiescent, aborted, t :: rest =>
    if maxQuiet ≤ quiescent ∨ aborted = true then some aborted
    else if hasCb = true ∧ t.cbDone = true then some aborted
    else
      waitQuiesceLoop maxQuiet hasCb (if t.activity then 0 else quiescent + 1)
        t.abortAfter rest

/-- From src/reb/global.go lines 403-411 (`waitQuiesce`):
`maxQuiet := int(maxWait/sleep) + 1` with `sleep := Timeout.CplaneOperation`,
then the loop starting from a zero quiet counter and the initial aborted
flag. -/
def waitQuiesce (cplaneOperation maxWait : Duration) (hasCb : Bool)
    (initAborted : Bool) (trace : List QTick) : Option Bool :=
  waitQuiesceLoop ((maxWait / cplaneOperation).toNat + 1) hasCb 0 initAborted trace

/-- The number of consecutive quiet ticks at the end of a consumed trace
prefix, starting from counter q: incremented by a quiet tick, reset to zero
by an activity tick (the claim's wording of the quiet-counting protocol). -/
def quietStreak (q : Nat) (ts : List QTick) : Nat :=
  ts.foldl (fun acc t => if t.activity then 0 else acc + 1) q

/-! ### waitForPushReqs and nodesNotInStage (src/unnamed/part_005) -/

/-- A target as seen by `nodesNotInStage`: whether the entry is this node
itself, whether the stage registry places it in the probed stage
(`isInStageBatchUnlocked`), and whether EC node data for it exists. -/
structure PeerState where
  isSelf : Bool
  inStage : Bool
  hasNodeData : Bool
deriving DecidableEq, Repr

/-- From src/unnamed/part_005 lines 123-142 (`nodesNotInStage`): count the
targets other than this node that are either not in the probed stage, or —
when the stage is EC-detect — have no exchanged node data yet. -/
def nodesNotInStage (stage : Nat) (tmap : List PeerState) : Nat :=
  (tmap.filter (fun si => !si.isSelf &&
    (!si.inStage || (stage == rebStageECDetect && !si.hasNodeData)))).length

/-- One iteration's observation for the waitForPushReqs loop: the abort
flag and the stage-registry snapshot the iteration reads. -/
structure PushObs where
  aborted : Bool
  tmap : List PeerState
deriving DecidableEq, Repr

/-- From src/unnamed/part_005 lines 456-467, the waitForPushReqs loop body:
return true on abort; once fewer than maxMissing targets are missing, or
for stages up to EC-namespace (single check, no wait), return whether no
target is missing; otherwise sleep and retry. -/
def waitForPushReqsLoop (maxMissing stage : Nat) : List PushObs → Bool
  | [] => false
  | o :: rest =>
    if o.aborted then true
    else if nodesNotInStage stage o.tmap < maxMissing ∨ stage ≤ rebStageECNamespace then
      nodesNotInStage stage o.tmap == 0
    else waitForPushReqsLoop maxMissing stage rest

/-- The number of iterations of a `for curWait < maxWait { ...; curWait +=
sleep }` loop: the least m with m * sleep ≥ maxWait. -/
def pollIters (maxWait sleep : Duration) : Nat := ((maxWait + sleep - 1) / sleep).toNat

/-- From src/unnamed/part_005 lines 447-468 (`waitForPushReqs`):
`maxMissing := len(smap.Tmap)/2`, sleep is twice CplaneOperation, maxWait
defaults to one minute when no timeout is given; the loop consumes one
stage-registry observation per iteration. -/
def waitForPushReqs (tmapLen : Nat) (stage : Nat) (cplaneOperation : Duration)
    (timeout : Option Duration) (obs : List PushObs) : Bool :=
  waitForPushReqsLoop (tmapLen / 2) stage
    (obs.take (pollIters (timeout.getD minuteNs) (cplaneOperation * 2)))

/-! ### globalJogger.send (src/reb/global.go lines 694-771) -/

/-- The outcomes of the fallible steps inside globalJogger.send, in source
order: `lom.Load`, `lom.IsCopy`, `CksumComputeIfMissing`, `NewFileHandle`,
and the stream `Send` call. -/
structure SendInput where
  uname : String
  lomTag : Nat
  loadErr : Bool
  isCopy : Bool
  cksumErr : Bool
  fileErr : Bool
  sendErr : Bool
deriving DecidableEq, Repr

/-- The sender-side state globalJogger.send touches: the pending-ack shard
for this LOM's uname, the manager's in-queue counter, the `laterx` activity
flag, whether the packed ack bytes were freed on the error path, and
whether the LOM read lock is still held on return. -/
structure SendResult where
  err : Bool
  lomAcks : List (String × Nat)
  inQueue : Int
  laterx : Bool
  opaqueFreed : Bool
  lomLocked : Bool
deriving DecidableEq, Repr

/-- Go-map insert on the pending-ack shard (`lomAck.q[uname] = lom`). -/
def ackInsert (q : List (String × Nat)) (k : String) (v : Nat) : List (String × Nat) :=
  (k, v) :: q.filter (fun p => !(p.1 == k))

/-- Go-map delete on the pending-ack shard (`delete(lomAck.q, uname)`). -/
def ackDelete (q : List (String × Nat)) (k : String) : List (String × Nat) :=
  q.filter (fun p => !(p.1 == k))

/-- Go-map lookup on the pending-ack shard. -/
def ackLookup (q : List (String × Nat)) (k : String) : Option Nat :=
  (q.find? (fun p => p.1 == k)).map (fun p => p.2)

/-- From src/reb/global.go lines 694-771 (`globalJogger.send`): lock the
LOM; on any early error unlock and return; with addAck, optimistically
insert the pending-ack entry before transmitting; bump the in-queue
counter; on a Send error undo the counter, delete the pending-ack entry,
free the packed ack bytes and return the error; on success set `laterx`. -/
def globalJoggerSend (acks : List (String × Nat)) (inQueue : Int) (laterx : Bool)
    (addAck : Bool) (inp : SendInput) : SendResult :=
  if inp.loadErr then
    { err := true, lomAcks := acks, inQueue := inQueue, laterx := laterx,
      opaqueFreed := false, lomLocked := false }
  else if inp.isCopy then
    { err := false, lomAcks := acks, inQueue := inQueue, laterx := laterx,
      opaqueFreed := false, lomLocked := false }
  else if inp.cksumErr then
    { err := true, lomAcks := acks, inQueue := inQueue, laterx := laterx,
      opaqueFreed := false, lomLocked := false }
  else if inp.fileErr then
    { err := true, lomAcks := acks, inQueue := inQueue, laterx := laterx,
      opaqueFreed := false, lomLocked := false }
  else
    let acks1 := if addAck then ackInsert acks inp.uname inp.lomTag else acks
    if inp.sendErr then
      { err := true, lomAcks := if addAck then ackDelete acks1 inp.uname else acks1,
        inQueue := inQueue + 1 - 1, laterx := laterx, opaqueFreed := true,
        lomLocked := false }
    else
      { err := false, lomAcks := acks1, inQueue := inQueue + 1, laterx := true,
        opaqueFreed := false, lomLocked := true }

/-! ### Concrete instances used by witnesses and counterexamples -/

/-- A peer status with a newer Smap version than the local run. -/
def demoNewerStatus : RebStatus :=
  { smapVersion := 8, rebVersion := 7, globRebID := 10, stage := rebStageTraverse,
    aborted := false, quiescent := false }

/-- A peer status reporting the same globRebID with Aborted set. -/
def demoAbortedStatus : RebStatus :=
  { smapVersion := 7, rebVersion := 7, globRebID := 10, stage := rebStageTraverse,
    aborted := true, quiescent := false }

/-- A stage snapshot with self, three peers in stage with node data, and
one lagging peer. -/
def demoPushObs : PushObs :=
  { aborted := false,
    tmap := [{ isSelf := true, inStage := false, hasNodeData := false },
             { isSelf := false, inStage := true, hasNodeData := true },
             { isSelf := false, inStage := true, hasNodeData := true },
             { isSelf := false, inStage := true, hasNodeData := true },
             { isSelf := false, inStage := false, hasNodeData := false }] }

/-- A quiet observation trace: two quiet ticks, no callback, no abort. -/
def demoQuietTrace : List QTick :=
  [{ activity := false, cbDone := false, abortAfter := false },
   { activity := false, cbDone := false, abortAfter := false }]

/-- A send attempt whose stream Send call fails. -/
def demoSendInput : SendInput :=
  { uname := "bck/obj1", lomTag := 7, loadErr := false, isCopy := false,
    cksumErr := false, fileErr := false, sendErr := true }

-- ===== THEOREMS =====

/-- C3: the wait-ack polling deadline equals the minimum of
(DestRetryTime + one minute per ten targets, integer division) and
twice DestRetryTime, for every configuration and target count. -/
theorem globalRebWaitAck_deadline (destRetryTime : Duration) (targetCnt : Nat) :
    globalRebWaitAckDeadline destRetryTime targetCnt =
      min (destRetryTime + minuteNs * ((targetCnt / 10 : Nat) : Int)) (2 * destRetryTime) := by
  have hd : globalRebWaitAckDeadline destRetryTime targetCnt =
      MinDur (destRetryTime + minuteNs * ((targetCnt / 10 : Nat) : Int)) (destRetryTime * 2) := rfl
  rw [hd, MinDur, mul_comm destRetryTime 2, min_def]
  rcases lt_or_ge (destRetryTime + minuteNs * ((targetCnt / 10 : Nat) : Int)) (2 * destRetryTime)
    with h | h
  · rw [if_pos h, if_pos (le_of_lt h)]
  · rw [if_neg (not_lt.mpr h)]
    by_cases hle : destRetryTime + minuteNs * ((targetCnt / 10 : Nat) : Int) ≤ 2 * destRetryTime
    · rw [if_pos hle]
      exact le_antisymm h hle
    · rw [if_neg hle]

/-- C8: counterexample. At pressure High and a working size of exactly 50 MiB
the code keeps the data in memory (the comparison `objSize > objSizeHighMem`
is strict), while the claim condition (pressure at least High, size at least
50 MiB) holds; and at pressure Extreme with size 0 the code spills to disk
while the claim condition fails. -/
theorem useDisk_counterexample :
    useDisk .high objSizeHighMem = false ∧ useDiskClaim .high objSizeHighMem = true ∧
    useDisk .extreme 0 = true ∧ useDiskClaim .extreme 0 = false := by
  refine ⟨by decide, by decide, by decide, by decide⟩

/-- C8 (amended): EC spills a slice to a temp file iff the memory pressure is
Extreme or OOM, or the pressure is High and the working size strictly
exceeds 50 MiB. -/
theorem useDisk_spec (pressure : MemPressure) (objSize : Int) :
    useDisk pressure objSize =
      (pressure == .extreme || pressure == .oom ||
        (pressure == .high && decide (objSize > objSizeHighMem))) := by
  cases pressure <;> simp [useDisk]

/-- C5: on the collector tick at which a registered, non-terminated, active
stream's ticks reach zero, the stream transitions from active to inactive
iff its work queue is empty and its posted counter (frames posted since the
last tick, swapped to zero) is zero; otherwise it stays active; in either
case its ticks are reset to idleOut/tickUnit; on a successful transition a
tickMarker frame is enqueued. -/
theorem collector_idle_transition (s : Stream)
    (hterm : s.terminated = false) (hact : s.sessST = .active)
    (hticks : s.time.ticks = 1) :
    ∃ s1, collectorDoStream s = (some s1, []) ∧
      s1.time.ticks = s.time.idleOut / tickUnit ∧
      s1.time.posted = 0 ∧
      (s1.sessST = .inactive ↔ s.workCh = [] ∧ s.time.posted = 0) ∧
      (s.workCh = [] ∧ s.time.posted = 0 → s1.workCh = s.workCh ++ [tickMarkerObj]) ∧
      (¬(s.workCh = [] ∧ s.time.posted = 0) → s1.sessST = .active ∧ s1.workCh = s.workCh) := by
  have h1 : doPhase1 s = .kept { s with time := { s.time with ticks := 0 } } := by
    simp [doPhase1, hterm, hact, hticks]
  refine ⟨doPhase2 { s with time := { s.time with ticks := 0 } }, by
    simp [collectorDoStream, h1], ?_⟩
  by_cases hp : s.time.posted = 0
  · by_cases hw : s.workCh = []
    · simp [doPhase2, hp, hw, hact]
    · simp [doPhase2, hp, hw, hact, List.length_eq_zero]
  · have hp2 : s.time.posted > 0 := Nat.pos_of_ne_zero hp
    simp [doPhase2, hp, hp2, hact]

/-- C5 witness: the idle-transition theorem instantiated at a concrete
empty-queue idle stream. -/
theorem collector_idle_transition_witness :
    ∃ s1, collectorDoStream demoIdleStream = (some s1, []) ∧
      s1.time.ticks = demoIdleStream.time.idleOut / tickUnit ∧
      s1.time.posted = 0 ∧
      (s1.sessST = .inactive ↔ demoIdleStream.workCh = [] ∧ demoIdleStream.time.posted = 0) ∧
      (demoIdleStream.workCh = [] ∧ demoIdleStream.time.posted = 0 →
        s1.workCh = demoIdleStream.workCh ++ [tickMarkerObj]) ∧
      (¬(demoIdleStream.workCh = [] ∧ demoIdleStream.time.posted = 0) →
        s1.sessST = .active ∧ s1.workCh = demoIdleStream.workCh) :=
  collector_idle_transition demoIdleStream rfl rfl rfl

/-- C7: on every collector tick a terminated stream's ticks are
decremented; once they reach ≤ 0 the stream is removed from the collector's
stream map and its queue is drained, invoking each remaining frame's
completion callback with the stored termination error, defaulting to
reasonUnknown when none was stored. -/
theorem collector_terminated_drain (s : Stream) (hterm : s.terminated = true) :
    (1 < s.time.ticks →
      collectorDoStream s =
        (some { s with time := { s.time with ticks := s.time.ticks - 1 } }, [])) ∧
    (s.time.ticks ≤ 1 →
      collectorDoStream s =
        (none, s.workCh.map (fun o => (o, s.termErr.getD .reasonUnknown)))) := by
  constructor
  · intro h
    have hgt : ¬(s.time.ticks - 1 ≤ 0) := by omega
    simp [collectorDoStream, doPhase1, doPhase2, hterm, hgt]
    omega
  · intro h
    have hle : s.time.ticks - 1 ≤ 0 := by omega
    simp [collectorDoStream, doPhase1, hterm, hle]

/-- C7 witness: the terminated-stream theorem instantiated at a concrete
terminated stream holding one queued frame and no stored error. -/
theorem collector_terminated_drain_witness :
    collectorDoStream demoTermStream =
      (none, demoTermStream.workCh.map
        (fun o => (o, demoTermStream.termErr.getD .reasonUnknown))) :=
  (collector_terminated_drain demoTermStream rfl).2 (by decide)

/-! Helper lemmas for the collector heap model. -/

theorem hget_lt (a : Array Stream) (k : Nat) (h : k < a.size) : hget a k = a[k] := by
  simp [hget, Array.getD, h]

theorem hget_setD (a : Array Stream) (i k : Nat) (v : Stream) :
    hget (a.setD i v) k = if i = k ∧ i < a.size then v else hget a k := by
  unfold hget
  by_cases hi : i < a.size
  · have hset : a.setD i v = a.set ⟨i, hi⟩ v := by simp [Array.setD, hi]
    rw [hset]
    simp only [Array.getD_eq_get?]
    by_cases hik : i = k
    · subst hik
      rw [Array.getElem?_set_eq a ⟨i, hi⟩ v]
      simp [hi]
    · rw [Array.getElem?_set_ne _ _ _ hik]
      simp [hik]
  · have hset : a.setD i v = a := by simp [Array.setD, hi]
    rw [hset]
    simp [hi]

theorem size_cSwap (a : Array Stream) (i j : Nat) : (cSwap a i j).size = a.size := by
  simp [cSwap]

theorem idxInv_cSwap (a : Array Stream) (i j : Nat) (h : IdxInv a) : IdxInv (cSwap a i j) := by
  intro k hk
  rw [size_cSwap] at hk
  simp only [cSwap]
  rw [hget_setD, Array.size_setD, hget_setD]
  by_cases hjk : j = k ∧ j < a.size
  · rw [if_pos hjk]
    exact hjk.1
  · rw [if_neg hjk]
    by_cases hik : i = k ∧ i < a.size
    · rw [if_pos hik]
      exact hik.1
    · rw [if_neg hik]
      exact h k hk

theorem idxInv_upGoF (fuel : Nat) :
    ∀ (a : Array Stream) (j : Nat), IdxInv a → IdxInv (upGoF fuel a j) := by
  induction fuel with
  | zero => exact fun a j h => h
  | succ m ih =>
    intro a j h
    rw [upGoF]
    split
    · exact h
    · split
      · exact ih _ _ (idxInv_cSwap _ _ _ h)
      · exact h

theorem idxInv_upGo (a : Array Stream) (j : Nat) (h : IdxInv a) : IdxInv (upGo a j) :=
  idxInv_upGoF _ _ _ h

theorem idxInv_downGoF (fuel : Nat) :
    ∀ (a : Array Stream) (i n : Nat), IdxInv a → IdxInv (downGoF fuel a i n).1 := by
  induction fuel with
  | zero => exact fun a i n h => h
  | succ m ih =>
    intro a i n h
    rw [downGoF]
    split
    · split
      · exact ih _ _ _ (idxInv_cSwap _ _ _ h)
      · exact h
    · exact h

theorem idxInv_fixGo (a : Array Stream) (i : Nat) (h : IdxInv a) : IdxInv (fixGo a i) := by
  simp only [fixGo, downGo]
  split
  · exact idxInv_downGoF _ _ _ _ h
  · exact idxInv_upGo _ _ (idxInv_downGoF _ _ _ _ h)

theorem idxInv_pop (a : Array Stream) (h : IdxInv a) : IdxInv a.pop := by
  intro k hk
  have hk2 : k < a.size := Nat.lt_of_lt_of_le hk (Array.size_pop a ▸ Nat.sub_le _ _)
  rw [hget_lt _ _ hk, Array.getElem_pop, ← hget_lt _ _ hk2]
  exact h k hk2

theorem idxInv_push (a : Array Stream) (s : Stream) (h : IdxInv a) :
    IdxInv (a.push { s with time := { s.time with index := a.size } }) := by
  intro k hk
  rw [Array.size_push] at hk
  have hk2 : k < (a.push { s with time := { s.time with index := a.size } }).size := by
    rw [Array.size_push]; exact hk
  rw [hget_lt _ _ hk2, Array.getElem_push]
  split
  · rw [← hget_lt _ _ (by assumption)]
    exact h k (by assumption)
  · have : k = a.size := by omega
    simp [this]

theorem idxInvB_iff (a : Array Stream) : idxInvB a = true ↔ IdxInv a := by
  unfold idxInvB IdxInv
  rw [List.all_eq_true]
  constructor
  · intro hb i hi
    have := hb i (List.mem_range.mpr hi)
    exact beq_iff_eq.mp this
  · intro h i hi
    exact beq_iff_eq.mpr (h i (List.mem_range.mp hi))

theorem ticksSortedB_iff (a : Array Stream) : ticksSortedB a = true ↔ TicksSorted a := by
  unfold ticksSortedB TicksSorted
  rw [List.all_eq_true]
  constructor
  · intro hb i hi
    have := hb i (List.mem_range.mpr (by omega))
    exact of_decide_eq_true this
  · intro h i hi
    exact decide_eq_true (h i (by have := List.mem_range.mp hi; omega))

/-- C6: counterexample. The comment closing `collector.do` asserts that the
heap array stays sorted by ticks, but removing the middle stream of a
five-stream heap (five ctrl-add events in increasing tick order, then the
ctrl-remove of the stream stored at its heap index 1) leaves the array
`[6, 9, 8, 10]`, which is not sorted at position 1. -/
theorem collector_heap_sorted_counterexample :
    (hget demoHeap 1).lid = "s7" ∧ (hget demoHeap 1).time.index = 1 ∧
    TicksSorted demoHeap ∧
    (heapRemove demoHeap 1).toList.map (fun s => s.time.ticks) = [6, 9, 8, 10] ∧
    ¬ TicksSorted (heapRemove demoHeap 1) := by
  refine ⟨by decide, by decide, (ticksSortedB_iff _).mp (by decide), by decide, ?_⟩
  intro hsorted
  have : ticksSortedB (heapRemove demoHeap 1) = true := (ticksSortedB_iff _).mpr hsorted
  revert this
  decide

/-- C6 (amended): every collector heap operation — ctrl-add, ctrl-remove
and the tick update — preserves the invariant that each registered stream's
stored `time.index` equals its position in the heap array. The sortedness
part of the claim does not hold (see the counterexample); only the heap
ordering discipline of container/heap is maintained. -/
theorem collector_heap_index_invariant (a : Array Stream) (h : IdxInv a)
    (s : Stream) (i : Nat) (t : Int) :
    IdxInv (heapAdd a s) ∧ IdxInv (heapRemove a i) ∧ IdxInv (heapUpdate a i t) := by
  refine ⟨?_, ?_, ?_⟩
  · simp only [heapAdd]
    exact idxInv_upGo _ _ (idxInv_fixGo _ _ (idxInv_push _ _ h))
  · simp only [heapRemove]
    split
    · refine idxInv_pop _ ?_
      split
      · exact idxInv_downGoF _ _ _ _ (idxInv_cSwap _ _ _ h)
      · exact idxInv_upGo _ _ (idxInv_downGoF _ _ _ _ (idxInv_cSwap _ _ _ h))
    · exact idxInv_pop _ h
  · simp only [heapUpdate]
    refine idxInv_fixGo _ _ ?_
    intro k hk
    rw [Array.size_setD] at hk
    rw [hget_setD]
    split
    · rename_i hik
      have := h i hik.2
      simp [← hik.1, this]
    · exact h k hk

/-- C6 witness: the index invariant theorem instantiated at the concrete
five-stream heap. -/
theorem collector_heap_index_invariant_witness :
    IdxInv (heapAdd demoHeap (mkStream "s11" 11)) ∧ IdxInv (heapRemove demoHeap 1) ∧
      IdxInv (heapUpdate demoHeap 1 3) :=
  collector_heap_index_invariant demoHeap ((idxInvB_iff _).mp (by decide))
    (mkStream "s11" 11) 1 3

/-! Helper lemma for the waiter registry. -/

theorem find_objsAdd (objs : List (String × List WaitCT)) (uid : String) (w : WaitCT)
    (p : String × List WaitCT)
    (hfind : objs.find? (fun q => q.1 == uid) = some p) :
    (objsAdd objs uid w).find? (fun q => q.1 == uid) = some (p.1, w :: p.2) := by
  induction objs with
  | nil => simp at hfind
  | cons q rest ih =>
    rcases hq : (q.1 == uid) with _ | _
    · simp only [List.find?_cons, hq] at hfind
      have hrec := ih hfind
      simp only [objsAdd, List.map_cons, hq, Bool.false_eq_true, if_false, List.find?_cons]
      simpa only [objsAdd] using hrec
    · simp only [List.find?_cons, hq] at hfind
      injection hfind with hqp
      subst hqp
      simp only [objsAdd, List.map_cons, hq, if_true, List.find?_cons]

/-- C9: calling `lookupCreate` a second time with the same uid and slot
returns the identical waiter handle and leaves the registry — in
particular the outstanding `waitFor` counter — unchanged. -/
theorem lookupCreate_idempotent (wt : ECWaiterReg) (uid : String) (slot : Int)
    (mode : Nat) :
    lookupCreate (lookupCreate wt uid slot mode).2 uid slot mode =
      ((lookupCreate wt uid slot mode).1, (lookupCreate wt uid slot mode).2) ∧
    (lookupCreate (lookupCreate wt uid slot mode).2 uid slot mode).2.waitFor =
      (lookupCreate wt uid slot mode).2.waitFor := by
  have key : lookupCreate (lookupCreate wt uid slot mode).2 uid slot mode =
      ((lookupCreate wt uid slot mode).1, (lookupCreate wt uid slot mode).2) := by
    rcases hfind : wt.objs.find? (fun p => p.1 == uid) with _ | p
    · simp only [lookupCreate, hfind]
      rw [List.find?_cons_of_pos _ (by simp)]
      simp [slotLookup]
    · rcases hslot : slotLookup p.2 slot with _ | w
      · simp only [lookupCreate, hfind, hslot]
        rw [find_objsAdd wt.objs uid _ p hfind]
        simp [slotLookup]
      · simp only [lookupCreate, hfind, hslot]
  exact ⟨key, by rw [key]⟩

/-- C1: counterexample. A peer status with a newer Smap version makes
checkGlobStatus abort through `abortGlobal`, the broadcast abort — not a
local-only abort as the claim's "no broadcast" requires. -/
theorem checkGlobStatus_counterexample :
    (checkGlobStatus 10 7 rebStageFin false false false false demoNewerStatus).action =
      AbortAction.broadcastAbort := by decide

/-- C1 (amended): a status poll whose peer reports a newer Smap version,
newer rebalance version, or greater globRebID aborts the local run
immediately through abortGlobal, which broadcasts the abort to the other
targets; the local-only abort (no broadcast) happens instead when the peer
reports matching versions and the same globRebID with Aborted set. -/
theorem checkGlobStatus_newer_epoch (localID ver : Int) (desiredStage : Nat)
    (st : RebStatus)
    (hnewer : ver < st.smapVersion ∨ ver < st.rebVersion ∨ localID < st.globRebID) :
    checkGlobStatus localID ver desiredStage false false false false st =
      { status := some st, ok := false, action := .broadcastAbort } ∧
    ∀ st2 : RebStatus, st2.smapVersion = ver → st2.rebVersion = ver →
      st2.globRebID = localID → st2.aborted = true →
      checkGlobStatus localID ver desiredStage false false false false st2 =
        { status := some st2, ok := false, action := .localAbort } := by
  constructor
  · rcases hnewer with h | h | h
    · simp [checkGlobStatus, h]
    · simp [checkGlobStatus, h]
    · by_cases hv : st.smapVersion > ver ∨ st.rebVersion > ver
      · simp [checkGlobStatus, hv]
      · simp [checkGlobStatus, hv, h]
  · intro st2 h1 h2 h3 h4
    simp [checkGlobStatus, h1, h2, h3, h4, lt_irrefl]

/-- C1 witness: the amended theorem instantiated at the concrete
newer-Smap status and same-ID-aborted status. -/
theorem checkGlobStatus_newer_epoch_witness :
    checkGlobStatus 10 7 rebStageFin false false false false demoNewerStatus =
      { status := some demoNewerStatus, ok := false, action := .broadcastAbort } ∧
    checkGlobStatus 10 7 rebStageFin false false false false demoAbortedStatus =
      { status := some demoAbortedStatus, ok := false, action := .localAbort } :=
  ⟨(checkGlobStatus_newer_epoch 10 7 rebStageFin demoNewerStatus
      (Or.inl (by decide))).1,
   (checkGlobStatus_newer_epoch 10 7 rebStageFin demoNewerStatus
      (Or.inl (by decide))).2 demoAbortedStatus rfl rfl rfl rfl⟩

/-! Helper lemma for the pending-ack shard. -/

theorem ackLookup_ackDelete (q : List (String × Nat)) (k : String) :
    ackLookup (ackDelete q k) k = none := by
  unfold ackLookup ackDelete
  induction q with
  | nil => rfl
  | cons p rest ih =>
    by_cases hp : (p.1 == k) = true
    · simp only [List.filter_cons, hp, Bool.not_true, if_false]
      exact ih
    · have hpf : (p.1 == k) = false := by simpa using hp
      simp only [List.filter_cons, hpf, Bool.not_false, if_true, List.find?_cons, hpf]
      exact ih

/-- C10: in globalJogger.send with addAck, when the stream Send call
fails, the pending-ack entry inserted for the LOM's uname before
transmitting is deleted again, the in-queue counter is decremented back,
and the opaque ack bytes are freed, so the failed send leaves the LOM-ack
map with no entry for that object. -/
theorem globalJoggerSend_failed (acks : List (String × Nat)) (inQueue : Int)
    (laterx : Bool) (inp : SendInput)
    (h1 : inp.loadErr = false) (h2 : inp.isCopy = false) (h3 : inp.cksumErr = false)
    (h4 : inp.fileErr = false) (h5 : inp.sendErr = true) :
    (globalJoggerSend acks inQueue laterx true inp).err = true ∧
    ackLookup (globalJoggerSend acks inQueue laterx true inp).lomAcks inp.uname = none ∧
    (globalJoggerSend acks inQueue laterx true inp).inQueue = inQueue ∧
    (globalJoggerSend acks inQueue laterx true inp).opaqueFreed = true := by
  have hres : globalJoggerSend acks inQueue laterx true inp =
      { err := true,
        lomAcks := ackDelete (ackInsert acks inp.uname inp.lomTag) inp.uname,
        inQueue := inQueue + 1 - 1, laterx := laterx, opaqueFreed := true,
        lomLocked := false } := by
    simp [globalJoggerSend, h1, h2, h3, h4, h5]
  rw [hres]
  exact ⟨rfl, ackLookup_ackDelete _ _, by simp, rfl⟩

/-- C10 witness: the failed-send theorem instantiated at a concrete shard
and send attempt. -/
theorem globalJoggerSend_failed_witness :
    (globalJoggerSend [("bck/obj0", 3)] 5 false true demoSendInput).err = true ∧
    ackLookup (globalJoggerSend [("bck/obj0", 3)] 5 false true demoSendInput).lomAcks
      demoSendInput.uname = none ∧
    (globalJoggerSend [("bck/obj0", 3)] 5 false true demoSendInput).inQueue = 5 ∧
    (globalJoggerSend [("bck/obj0", 3)] 5 false true demoSendInput).opaqueFreed = true :=
  globalJoggerSend_failed [("bck/obj0", 3)] 5 false demoSendInput rfl rfl rfl rfl rfl

/-- C4: counterexample. With five targets (four peers) probed at stage
EC-detect, three of the four peers already in stage — which meets the
claim's success threshold of ceil(4/2) + 1 = 3 reached peers —
waitForPushReqs returns false: the loop stops waiting because fewer than
len(Tmap)/2 = 2 targets are missing, but it reports success only when no
target is missing. -/
theorem waitForPushReqs_counterexample :
    waitForPushReqs 5 rebStageECDetect (2 * 1000000000) none [demoPushObs] = false ∧
    (demoPushObs.tmap.filter (fun p => !p.isSelf && p.inStage)).length = 3 ∧
    (demoPushObs.tmap.filter (fun p => !p.isSelf)).length = 4 ∧
    4 / 2 + 1 = 3 := by
  exact ⟨by decide, by decide, by decide, by decide⟩

/-! Helper lemma: the push-wait loop as a first-decisive-observation
search. -/

theorem waitForPushReqsLoop_eq_find (maxMissing stage : Nat) (trace : List PushObs) :
    waitForPushReqsLoop maxMissing stage trace =
      ((trace.find? (fun o => o.aborted ||
          decide (nodesNotInStage stage o.tmap < maxMissing) ||
          decide (stage ≤ rebStageECNamespace))).elim false
        (fun o => o.aborted || (nodesNotInStage stage o.tmap == 0))) := by
  induction trace with
  | nil => rfl
  | cons o rest ih =>
    by_cases ha : o.aborted = true
    · rw [waitForPushReqsLoop, if_pos ha,
        List.find?_cons_of_pos _ (by simp [ha])]
      simp [ha]
    · have haf : o.aborted = false := by simpa using ha
      by_cases hd : nodesNotInStage stage o.tmap < maxMissing ∨ stage ≤ rebStageECNamespace
      · rw [waitForPushReqsLoop, if_neg (by simp [haf]), if_pos hd,
          List.find?_cons_of_pos _ (by
            rcases hd with hd | hd <;> simp [haf, hd])]
        simp [haf]
      · rw [waitForPushReqsLoop, if_neg (by simp [haf]), if_neg hd,
          List.find?_cons_of_neg _ (by
            push_neg at hd
            simp [haf, not_lt.mpr hd.1, not_le.mpr hd.2])]
        exact ih

/-- C4 (amended): waitForPushReqs waits up to the given timeout (one
minute when omitted), checking the abort flag each iteration and returning
true on abort; it takes its decision at the first iteration that is
decisive — fewer than len(Tmap)/2 targets missing from the stage, or a
stage at most EC-namespace (a single check, no wait) — and then succeeds
iff zero targets are missing; with no decisive iteration before the
timeout it returns false. Reaching the quorum thus only stops the waiting;
success requires every peer to have reached the stage. -/
theorem waitForPushReqs_characterization (tmapLen stage : Nat)
    (cplaneOperation : Duration) (timeout : Option Duration) (obs : List PushObs) :
    waitForPushReqs tmapLen stage cplaneOperation timeout obs =
      (((obs.take (pollIters (timeout.getD minuteNs) (cplaneOperation * 2))).find?
        (fun o => o.aborted ||
          decide (nodesNotInStage stage o.tmap < tmapLen / 2) ||
          decide (stage ≤ rebStageECNamespace))).elim false
        (fun o => o.aborted || (nodesNotInStage stage o.tmap == 0))) :=
  waitForPushReqsLoop_eq_find (tmapLen / 2) stage _

/-! Helper lemmas for the quiesce wait loop. -/

theorem quietStreak_cons (q : Nat) (t : QTick) (l : List QTick) :
    quietStreak q (t :: l) = quietStreak (if t.activity then 0 else q + 1) l := rfl

theorem waitQuiesceLoop_of_aborted (maxQuiet : Nat) (hasCb : Bool) (q : Nat)
    (trace : List QTick) :
    waitQuiesceLoop maxQuiet hasCb q true trace = some true := by
  cases trace with
  | nil =>
    rw [waitQuiesceLoop]
    simp
  | cons t rest =>
    rw [waitQuiesceLoop]
    simp

theorem waitQuiesceLoop_false_iff (maxQuiet : Nat) (trace : List QTick) :
    ∀ q : Nat,
      waitQuiesceLoop maxQuiet false q false trace = some false ↔
        ∃ k, k ≤ trace.length ∧ (∀ t ∈ trace.take k, t.abortAfter = false) ∧
          maxQuiet ≤ quietStreak q (trace.take k) := by
  induction trace with
  | nil =>
    intro q
    rw [waitQuiesceLoop]
    by_cases hq : maxQuiet ≤ q
    · rw [if_pos (Or.inl hq)]
      constructor
      · intro _
        exact ⟨0, Nat.le_refl 0, by simp, hq⟩
      · intro _
        rfl
    · rw [if_neg (by simp [hq])]
      constructor
      · intro h
        exact absurd h (by simp)
      · rintro ⟨k, hk, -, hstreak⟩
        rw [List.take_nil] at hstreak
        exact absurd hstreak hq
  | cons t rest ih =>
    intro q
    rw [waitQuiesceLoop]
    by_cases hq : maxQuiet ≤ q
    · rw [if_pos (Or.inl hq)]
      constructor
      · intro _
        exact ⟨0, Nat.zero_le _, by simp, hq⟩
      · intro _
        rfl
    · rw [if_neg (by simp [hq]), if_neg (by simp)]
      rcases hab : t.abortAfter with _ | _
      · rw [ih]
        constructor
        · rintro ⟨k, hk, hnab, hstreak⟩
          refine ⟨k + 1, by simpa using Nat.succ_le_succ hk, ?_, ?_⟩
          · intro t' ht'
            rw [List.take_succ_cons] at ht'
            rcases List.mem_cons.mp ht' with rfl | hmem
            · exact hab
            · exact hnab t' hmem
          · rw [List.take_succ_cons, quietStreak_cons]
            exact hstreak
        · rintro ⟨k, hk, hnab, hstreak⟩
          cases k with
          | zero => exact absurd hstreak hq
          | succ k1 =>
            refine ⟨k1, by simpa using Nat.le_of_succ_le_succ hk, ?_, ?_⟩
            · intro t' ht'
              exact hnab t' (by rw [List.take_succ_cons]; exact List.mem_cons_of_mem _ ht')
            · rw [List.take_succ_cons, quietStreak_cons] at hstreak
              exact hstreak
      · rw [waitQuiesceLoop_of_aborted]
        constructor
        · intro h
          exact absurd h (by simp)
        · rintro ⟨k, hk, hnab, hstreak⟩
          cases k with
          | zero => exact absurd hstreak hq
          | succ k1 =>
            have habt := hnab t (by rw [List.take_succ_cons]; exact List.mem_cons_self t _)
            rw [hab] at habt
            exact absurd habt (by simp)

theorem waitQuiesceLoop_some_true (maxQuiet : Nat) (trace : List QTick) :
    ∀ (q : Nat) (ab : Bool),
      waitQuiesceLoop maxQuiet false q ab trace = some true →
        ab = true ∨ ∃ t ∈ trace, t.abortAfter = true := by
  induction trace with
  | nil =>
    intro q ab h
    rw [waitQuiesceLoop] at h
    by_cases hc : maxQuiet ≤ q ∨ ab = true
    · rw [if_pos hc] at h
      injection h with h
      exact Or.inl h
    · rw [if_neg hc] at h
      exact absurd h (by simp)
  | cons t rest ih =>
    intro q ab h
    rw [waitQuiesceLoop] at h
    by_cases hc : maxQuiet ≤ q ∨ ab = true
    · rw [if_pos hc] at h
      injection h with h
      exact Or.inl h
    · rw [if_neg hc, if_neg (by simp)] at h
      rcases ih _ _ h with hab | ⟨t', ht', h2⟩
      · exact Or.inr ⟨t, List.mem_cons_self t rest, hab⟩
      · exact Or.inr ⟨t', List.mem_cons_of_mem _ ht', h2⟩

theorem waitQuiesceLoop_abort_ends (maxQuiet : Nat) (trace : List QTick) :
    ∀ q : Nat,
      (∃ t ∈ trace, t.abortAfter = true) →
      (∀ j, j ≤ trace.length → quietStreak q (trace.take j) < maxQuiet) →
      waitQuiesceLoop maxQuiet false q false trace = some true := by
  induction trace with
  | nil =>
    intro q habort _
    rcases habort with ⟨t, ht, -⟩
    simp at ht
  | cons t rest ih =>
    intro q habort hstreak
    have hq : ¬ maxQuiet ≤ q := by
      have h0 := hstreak 0 (Nat.zero_le _)
      rw [List.take_zero] at h0
      exact not_le.mpr h0
    rw [waitQuiesceLoop, if_neg (by simp [hq]), if_neg (by simp)]
    rcases hab : t.abortAfter with _ | _
    · rcases habort with ⟨t', ht', h2⟩
      rcases List.mem_cons.mp ht' with rfl | hmem
      · rw [hab] at h2
        exact absurd h2 (by simp)
      · apply ih
        · exact ⟨t', hmem, h2⟩
        · intro j hj
          have hs := hstreak (j + 1) (by simpa using Nat.succ_le_succ hj)
          rw [List.take_succ_cons, quietStreak_cons] at hs
          exact hs
    · exact waitQuiesceLoop_of_aborted _ _ _ _

/-- C2: with no callback installed (cb == nil), waitQuiesce declares
quiescence — that is, the loop exits with a non-aborted result — exactly
when some prefix of the observation trace contains no abort and ends with
N = maxWait/CplaneOperation + 1 consecutive quiet ticks, a tick being quiet
iff the CAS on `laterx` fails (no inbound activity since the previous
tick) and the consecutive-quiet counter resetting to zero on every
activity tick; an aborted exit implies an abort was observed at some
sleep, and conversely an abort observed before quiescence is ever reached
ends the wait with an aborted result. -/
theorem waitQuiesce_spec (cplaneOperation maxWait : Duration) (maxQuiet : Nat)
    (trace : List QTick) :
    (waitQuiesce cplaneOperation maxWait false false trace =
      waitQuiesceLoop ((maxWait / cplaneOperation).toNat + 1) false 0 false trace) ∧
    (waitQuiesceLoop maxQuiet false 0 false trace = some false ↔
      ∃ k, k ≤ trace.length ∧ (∀ t ∈ trace.take k, t.abortAfter = false) ∧
        maxQuiet ≤ quietStreak 0 (trace.take k)) ∧
    (waitQuiesceLoop maxQuiet false 0 false trace = some true →
      ∃ t ∈ trace, t.abortAfter = true) ∧
    ((∃ t ∈ trace, t.abortAfter = true) →
      (∀ j, j ≤ trace.length → quietStreak 0 (trace.take j) < maxQuiet) →
      waitQuiesceLoop maxQuiet false 0 false trace = some true) := by
  refine ⟨rfl, waitQuiesceLoop_false_iff maxQuiet trace 0, ?_, ?_⟩
  · intro h
    rcases waitQuiesceLoop_some_true maxQuiet trace 0 false h with hab | hex
    · exact absurd hab (by simp)
    · exact hex
  · exact waitQuiesceLoop_abort_ends maxQuiet trace 0

/-- C2 witness: a trace of two quiet ticks reaches quiescence at
N = 2 (maxWait equal to one sleep interval). -/
theorem waitQuiesce_spec_witness :
    waitQuiesceLoop 2 false 0 false demoQuietTrace = some false :=
  (waitQuiesce_spec 1 1 2 demoQuietTrace).2.1.mpr
    ⟨2, by decide, by decide, by decide⟩

end AIStore
